import Mathlib

/-!
Verification of the SRAScrape metadata-classification pipeline.

The development shallowly embeds the two Python modules
(`sra_tissue_classifier.py` and `augment_csv.py`) into Lean:

* Python values flowing through the pipeline (results of `xmltodict.parse`
  and `json.loads`) are modelled by the inductive type `PyVal`
  (`None`, `bool`, `int`, `str`, `list`, `dict`); Python dictionaries are
  insertion-ordered association lists, with assignment (`assocSet`)
  replacing the value of an existing key in place and appending new keys,
  exactly like CPython dicts.
* Fallible Python code (attribute errors, index errors, raised exceptions)
  is modelled in the `Except PyErr` monad.
* Remote I/O (the NCBI fetches and the Gemini call) is abstracted: the
  already-parsed archive record, the HTTP outcome of the BioSample fetch
  and the classifier's reply text are inputs to the modelled functions,
  which is where the source code's own logic begins.

Modelling notes (documented simplifications, none load-bearing for the
claims below): `str.lower`/`str.strip`/`str.split` use ASCII case and
whitespace; the JSON reader models `json.loads` for null/bool/integer/
string/array/object data and treats floating-point literals, `NaN` and
`Infinity` as parse failures; `repr` of strings does not model escape
sequences or quote selection.
-/

/-- A Python value as produced by `xmltodict.parse` / `json.loads`. -/
inductive PyVal where
  | none : PyVal
  | bool : Bool → PyVal
  | int : Int → PyVal
  | str : String → PyVal
  | list : List PyVal → PyVal
  | dict : List (String × PyVal) → PyVal

/-- Python exceptions that the modelled code can raise. -/
inductive PyErr where
  | attributeError
  | indexError
  | typeError
  | keyError
  | runtimeError
deriving DecidableEq

/-- Python truthiness (`bool(v)`): `None`, `False`, `0`, `""`, `[]`, `{}` are falsy. -/
def truthy : PyVal → Bool
  | PyVal.none => false
  | PyVal.bool b => b
  | PyVal.int n => decide (n ≠ 0)
  | PyVal.str s => decide (s ≠ "")
  | PyVal.list xs => !xs.isEmpty
  | PyVal.dict kvs => !kvs.isEmpty

/-- Python `a or b`: `a` if truthy, else `b`. -/
def pyOr (a b : PyVal) : PyVal := if truthy a then a else b

/-- First-match lookup in an association list (Python dict lookup; keys unique). -/
def assocGet {α : Type} : List (String × α) → String → Option α
  | [], _ => Option.none
  | (k, v) :: rest, key => if k = key then some v else assocGet rest key

/-- Python dict assignment `d[k] = v`: replace in place when the key exists,
append otherwise (CPython keeps the original insertion position). -/
def assocSet {α : Type} : List (String × α) → String → α → List (String × α)
  | [], key, v => [(key, v)]
  | (k, w) :: rest, key, v =>
    if k = key then (key, v) :: rest else (k, w) :: assocSet rest key v

/-- `d.get(k, default)`; raises `AttributeError` when the receiver is not a dict. -/
def pyGetD (v : PyVal) (k : String) (d : PyVal) : Except PyErr PyVal :=
  match v with
  | PyVal.dict kvs => Except.ok ((assocGet kvs k).getD d)
  | _ => Except.error PyErr.attributeError

/-- `d.get(k)` (default `None`). -/
def pyGet (v : PyVal) (k : String) : Except PyErr PyVal := pyGetD v k PyVal.none

/-- `d[k]`: `KeyError` when absent, `TypeError` on a non-dict receiver. -/
def pyIndex (v : PyVal) (k : String) : Except PyErr PyVal :=
  match v with
  | PyVal.dict kvs =>
    match assocGet kvs k with
    | some x => Except.ok x
    | Option.none => Except.error PyErr.keyError
  | _ => Except.error PyErr.typeError

/-- `d[k] = x` on a dict value (only used on receivers known to be dicts). -/
def pySetItem (v : PyVal) (k : String) (x : PyVal) : PyVal :=
  match v with
  | PyVal.dict kvs => PyVal.dict (assocSet kvs k x)
  | w => w

/-- Python iteration `for x in v`: lists yield elements, dicts their keys,
strings their characters; other values raise `TypeError`. -/
def pyIter : PyVal → Except PyErr (List PyVal)
  | PyVal.list xs => Except.ok xs
  | PyVal.dict kvs => Except.ok (kvs.map (fun kv => PyVal.str kv.1))
  | PyVal.str s => Except.ok (s.data.map (fun c => PyVal.str (String.singleton c)))
  | _ => Except.error PyErr.typeError

/-- `v == s` for a string literal `s` (Python equality; non-strings compare unequal). -/
def pyEqStr (v : PyVal) (s : String) : Bool :=
  match v with
  | PyVal.str t => decide (t = s)
  | _ => false

/-- `s.lower()` on a string, character by character (ASCII case mapping). -/
def strLower (s : String) : String := String.mk (s.data.map Char.toLower)

/-- `v.lower()`: only strings have the method. -/
def pyLower (v : PyVal) : Except PyErr String :=
  match v with
  | PyVal.str s => Except.ok (strLower s)
  | _ => Except.error PyErr.attributeError

mutual
/-- Python `repr(...)` rendering (list/dict bodies handled mutually). -/
def pyRepr : PyVal → String
  | PyVal.none => "None"
  | PyVal.bool true => "True"
  | PyVal.bool false => "False"
  | PyVal.int n => toString n
  | PyVal.str s => "\x27" ++ s ++ "\x27"
  | PyVal.list xs => "[" ++ pyReprList xs ++ "]"
  | PyVal.dict kvs => "\x7b" ++ pyReprDict kvs ++ "\x7d"
def pyReprList : List PyVal → String
  | [] => ""
  | [x] => pyRepr x
  | x :: xs => pyRepr x ++ ", " ++ pyReprList xs
def pyReprDict : List (String × PyVal) → String
  | [] => ""
  | [(k, v)] => "\x27" ++ k ++ "\x27: " ++ pyRepr v
  | (k, v) :: kvs => "\x27" ++ k ++ "\x27: " ++ pyRepr v ++ ", " ++ pyReprDict kvs
end

/-- Python `str(v)`: identity on strings, `repr`-style otherwise. -/
def pyStr : PyVal → String
  | PyVal.str s => s
  | v => pyRepr v

/-- Python whitespace recognised by `str.strip` / `str.split` (ASCII part). -/
def isPyWs (c : Char) : Bool :=
  c = ' ' || c = '\t' || c = '\n' || c = '\r' || c = Char.ofNat 11 || c = Char.ofNat 12

/-- `s.strip()`. -/
def pyStrip (s : String) : String :=
  String.mk (((s.data.dropWhile isPyWs).reverse.dropWhile isPyWs).reverse)

/-- Helper for `str.split()`: accumulate the current token (reversed). -/
def wsTokensAux : List Char → List Char → List String
  | [], cur => if cur.isEmpty then [] else [String.mk cur.reverse]
  | c :: cs, cur =>
    if isPyWs c then
      if cur.isEmpty then wsTokensAux cs [] else String.mk cur.reverse :: wsTokensAux cs []
    else wsTokensAux cs (c :: cur)

/-- `s.split()`: split on runs of whitespace, no empty tokens. -/
def pySplitWs (s : String) : List String := wsTokensAux s.data []

/-- The `Char` for an opening curly brace. -/
def lbraceChar : Char := Char.ofNat 123

/-- The `Char` for a closing curly brace. -/
def rbraceChar : Char := Char.ofNat 125

/-- Whitespace skipped by the JSON reader (`json.loads`). -/
def jsonWs (c : Char) : Bool := c = ' ' || c = '\t' || c = '\n' || c = '\r'

/-- Drop leading JSON whitespace. -/
def skipJsonWs (cs : List Char) : List Char := cs.dropWhile jsonWs

/-- Value of one hexadecimal digit. -/
def hexVal (c : Char) : Option Nat :=
  if '0' ≤ c && c ≤ '9' then some (c.toNat - 48)
  else if 'a' ≤ c && c ≤ 'f' then some (c.toNat - 87)
  else if 'A' ≤ c && c ≤ 'F' then some (c.toNat - 55)
  else Option.none

/-- Decimal digit test. -/
def isDigitCh (c : Char) : Bool := '0' ≤ c && c ≤ '9'

/-- Parse the body of a JSON string (opening quote already consumed),
accumulating characters in reverse. Returns the string and the rest. -/
def jsonStringAux : List Char → List Char → Option (String × List Char)
  | [], _ => Option.none
  | c :: cs, acc =>
    if c = '"' then some (String.mk acc.reverse, cs)
    else if c = '\\' then
      match cs with
      | [] => Option.none
      | e :: cs2 =>
        if e = '"' then jsonStringAux cs2 ('"' :: acc)
        else if e = '\\' then jsonStringAux cs2 ('\\' :: acc)
        else if e = '/' then jsonStringAux cs2 ('/' :: acc)
        else if e = 'b' then jsonStringAux cs2 (Char.ofNat 8 :: acc)
        else if e = 'f' then jsonStringAux cs2 (Char.ofNat 12 :: acc)
        else if e = 'n' then jsonStringAux cs2 ('\n' :: acc)
        else if e = 'r' then jsonStringAux cs2 ('\r' :: acc)
        else if e = 't' then jsonStringAux cs2 ('\t' :: acc)
        else if e = 'u' then
          match cs2 with
          | h1 :: h2 :: h3 :: h4 :: cs3 =>
            match hexVal h1, hexVal h2, hexVal h3, hexVal h4 with
            | some a, some b, some c3, some d =>
              jsonStringAux cs3 (Char.ofNat (((a * 16 + b) * 16 + c3) * 16 + d) :: acc)
            | _, _, _, _ => Option.none
          | _ => Option.none
        else Option.none
    else if c.toNat < 32 then Option.none
    else jsonStringAux cs (c :: acc)

/-- Parse a JSON integer literal (floating-point literals are outside the model). -/
def jsonNum (cs : List Char) : Option (PyVal × List Char) :=
  let p := match cs with
    | '-' :: r => (true, r)
    | _ => (false, cs)
  let ds := p.2.takeWhile isDigitCh
  let rest := p.2.dropWhile isDigitCh
  if ds.isEmpty then Option.none
  else if ds.length > 1 && ds.head? = some '0' then Option.none
  else
    match rest with
    | '.' :: _ => Option.none
    | 'e' :: _ => Option.none
    | 'E' :: _ => Option.none
    | _ =>
      let n : Nat := ds.foldl (fun a c => a * 10 + (c.toNat - 48)) 0
      some (PyVal.int (if p.1 then -(n : Int) else (n : Int)), rest)

mutual
/-- Parse one JSON value (after skipping whitespace); fuel bounds recursion depth. -/
def jsonVal : Nat → List Char → Option (PyVal × List Char)
  | 0, _ => Option.none
  | fuel + 1, cs =>
    match skipJsonWs cs with
    | [] => Option.none
    | 't' :: 'r' :: 'u' :: 'e' :: rest => some (PyVal.bool true, rest)
    | 'f' :: 'a' :: 'l' :: 's' :: 'e' :: rest => some (PyVal.bool false, rest)
    | 'n' :: 'u' :: 'l' :: 'l' :: rest => some (PyVal.none, rest)
    | c :: rest =>
      if c = '"' then
        match jsonStringAux rest [] with
        | some p => some (PyVal.str p.1, p.2)
        | Option.none => Option.none
      else if c = lbraceChar then jsonObj fuel rest
      else if c = '[' then jsonArr fuel rest
      else if c = '-' || isDigitCh c then jsonNum (c :: rest)
      else Option.none

/-- Parse a JSON object body (after the opening brace). -/
def jsonObj : Nat → List Char → Option (PyVal × List Char)
  | 0, _ => Option.none
  | fuel + 1, cs =>
    match skipJsonWs cs with
    | [] => Option.none
    | c :: rest =>
      if c = rbraceChar then some (PyVal.dict [], rest)
      else jsonMembers fuel (c :: rest) []

/-- Parse the members of a JSON object; duplicate keys follow dict assignment
(last value wins, first insertion position kept), as in `json.loads`. -/
def jsonMembers : Nat → List Char → List (String × PyVal) → Option (PyVal × List Char)
  | 0, _, _ => Option.none
  | fuel + 1, cs, acc =>
    match skipJsonWs cs with
    | [] => Option.none
    | c :: rest =>
      if c = '"' then
        match jsonStringAux rest [] with
        | some kp =>
          match skipJsonWs kp.2 with
          | ':' :: r3 =>
            match jsonVal fuel r3 with
            | some vp =>
              let acc2 := assocSet acc kp.1 vp.1
              match skipJsonWs vp.2 with
              | ',' :: r5 => jsonMembers fuel r5 acc2
              | c5 :: r5 =>
                if c5 = rbraceChar then some (PyVal.dict acc2, r5) else Option.none
              | [] => Option.none
            | Option.none => Option.none
          | _ => Option.none
        | Option.none => Option.none
      else Option.none

/-- Parse a JSON array body (after the opening bracket). -/
def jsonArr : Nat → List Char → Option (PyVal × List Char)
  | 0, _ => Option.none
  | fuel + 1, cs =>
    match skipJsonWs cs with
    | [] => Option.none
    | c :: rest =>
      if c = ']' then some (PyVal.list [], rest)
      else jsonElems fuel (c :: rest) []

/-- Parse the elements of a JSON array. -/
def jsonElems : Nat → List Char → List PyVal → Option (PyVal × List Char)
  | 0, _, _ => Option.none
  | fuel + 1, cs, acc =>
    match jsonVal fuel cs with
    | some vp =>
      match skipJsonWs vp.2 with
      | ',' :: r2 => jsonElems fuel r2 (acc ++ [vp.1])
      | ']' :: r2 => some (PyVal.list (acc ++ [vp.1]), r2)
      | _ => Option.none
    | Option.none => Option.none
end

/-- Model of `json.loads`: parse one value and require only whitespace after it. -/
def json_loads (s : String) : Option PyVal :=
  match jsonVal (s.data.length + 2) s.data with
  | some vp => if (skipJsonWs vp.2).isEmpty then some vp.1 else Option.none
  | Option.none => Option.none

/-- Python `s.find(c)`: first index (in code points) or `-1`. -/
def pyFind (s : String) (c : Char) : Int :=
  match s.data.findIdx? (fun x => x = c) with
  | some i => (i : Int)
  | Option.none => -1

/-- Python `s.rfind(c)`: last index (in code points) or `-1`. -/
def pyRFind (s : String) (c : Char) : Int :=
  match s.data.reverse.findIdx? (fun x => x = c) with
  | some i => ((s.data.length : Int) - 1 - (i : Int))
  | Option.none => -1

/-- Python slice `s[a:b]` for non-negative bounds. -/
def pySlice (s : String) (a b : Int) : String :=
  String.mk (((s.data.drop a.toNat).take (b - a).toNat))

/-- `get_first` from `sra_tissue_classifier.py` (defined there but unused by
`extract_metadata_from_sra_xml`, which inlines a different, unguarded version). -/
def get_first : PyVal → PyVal
  | PyVal.list [] => PyVal.none
  | PyVal.list (x :: _) => x
  | v => v

/-- Lines 41-45 of `sra_tissue_classifier.py`: descend to the experiment
package. Note the source indexes `pkg[0]` before its `if not pkg` guard, so an
empty `EXPERIMENT_PACKAGE` list raises `IndexError`. -/
def getPackage (sra_xml : PyVal) : Except PyErr PyVal := do
  let pset ← pyGetD sra_xml "EXPERIMENT_PACKAGE_SET" (PyVal.dict [])
  let pkg ← pyGet pset "EXPERIMENT_PACKAGE"
  match pkg with
  | PyVal.list [] => Except.error PyErr.indexError
  | PyVal.list (x :: _) => pure x
  | v => pure v

/-- `external_ids if isinstance(external_ids, list) else [external_ids]`. -/
def toPyList : PyVal → List PyVal
  | PyVal.list xs => xs
  | v => [v]

/-- Lines 58-63: scan external identifiers for the BioSample namespace entry
(first match wins, taking its `#text`); `None` when the loop finds nothing. -/
def findBiosample : List PyVal → Except PyErr PyVal
  | [] => Except.ok PyVal.none
  | ex :: rest => do
    let ns ← pyGet ex "@namespace"
    if pyEqStr ns "BioSample" then pyGet ex "#text" else findBiosample rest

/-- Lines 55-63: `biosample` stays `None` unless the external-identifier field
is truthy, in which case the list scan runs (a lone entry is wrapped first). -/
def biosampleOf (external_ids : PyVal) : Except PyErr PyVal :=
  if truthy external_ids then findBiosample (toPyList external_ids)
  else pure PyVal.none

/-- Lines 74-79: fold the sample attribute list into the attribute dict.
Entries with a falsy `TAG` are skipped; tags are lower-cased before storing;
a truthy non-string tag raises `AttributeError` from `.lower()`. -/
def attrsOf : List PyVal → List (String × PyVal) → Except PyErr (List (String × PyVal))
  | [], acc => Except.ok acc
  | a :: rest, acc => do
    let tag ← pyGet a "TAG"
    let val ← pyGet a "VALUE"
    if truthy tag then
      match tag with
      | PyVal.str s => attrsOf rest (assocSet acc (strLower s) val)
      | _ => Except.error PyErr.attributeError
    else attrsOf rest acc

/-- `attrs.get(k)` on the attribute map (Python `dict.get` default `None`). -/
def agetD (attrs : List (String × PyVal)) (k : String) : PyVal :=
  (assocGet attrs k).getD PyVal.none

/-- Lines 85-96: the `parts` list for `metadata_text` — the four header fields
in fixed order, each kept only when truthy, then every attribute as
`key: value` in dict iteration (insertion) order. -/
def buildParts (study_title study_abstract sample_title organism : PyVal)
    (attrs : List (String × PyVal)) : List String :=
  let parts : List String := []
  let parts := if truthy study_title then parts ++ ["Study title: " ++ pyStr study_title] else parts
  let parts := if truthy study_abstract then parts ++ ["Study abstract: " ++ pyStr study_abstract] else parts
  let parts := if truthy sample_title then parts ++ ["Sample title: " ++ pyStr sample_title] else parts
  let parts := if truthy organism then parts ++ ["Organism: " ++ pyStr organism] else parts
  parts ++ attrs.map (fun kv => kv.1 ++ ": " ++ pyStr kv.2)

/-- Lines 81-83 and 99-112: the returned metadata dict, with the alias-resolved
`tissue` / `cell_type` / `cell_line` fields and the composed `metadata_text`. -/
def mkMeta (srx srs biosample sample_title study_title study_abstract organism : PyVal)
    (attrs : List (String × PyVal)) : PyVal :=
  PyVal.dict
    [("srx", srx), ("srs", srs), ("biosample", biosample),
     ("sample_title", sample_title), ("study_title", study_title),
     ("study_abstract", study_abstract), ("organism", organism),
     ("tissue", pyOr (agetD attrs "tissue") (agetD attrs "tissue_type")),
     ("cell_type", pyOr (agetD attrs "cell_type") (agetD attrs "celltype")),
     ("cell_line", pyOr (agetD attrs "cell_line") (agetD attrs "cell-line")),
     ("attributes", PyVal.dict attrs),
     ("metadata_text", PyVal.str (String.intercalate "\n"
        (buildParts study_title study_abstract sample_title organism attrs)))]

/-- Lines 47-112: the body of `extract_metadata_from_sra_xml` once a truthy
package has been selected. -/
def extractFromPkg (pkg : PyVal) : Except PyErr PyVal := do
  let experiment ← pyGetD pkg "EXPERIMENT" (PyVal.dict [])
  let sample ← pyGetD pkg "SAMPLE" (PyVal.dict [])
  let study ← pyGetD pkg "STUDY" (PyVal.dict [])
  let srx ← pyGet experiment "@accession"
  let srs ← pyGet sample "@accession"
  let identifiers ← pyGetD sample "IDENTIFIERS" (PyVal.dict [])
  let external_ids ← pyGet identifiers "EXTERNAL_ID"
  let biosample ← biosampleOf external_ids
  let sample_title ← pyGet sample "TITLE"
  let descriptor ← pyGetD study "DESCRIPTOR" (PyVal.dict [])
  let study_title ← pyGet descriptor "STUDY_TITLE"
  let descriptor2 ← pyGetD study "DESCRIPTOR" (PyVal.dict [])
  let study_abstract ← pyGet descriptor2 "STUDY_ABSTRACT"
  let sample_name ← pyGetD sample "SAMPLE_NAME" (PyVal.dict [])
  let organism ← pyGet sample_name "SCIENTIFIC_NAME"
  let sampleAttrs ← pyGetD sample "SAMPLE_ATTRIBUTES" (PyVal.dict [])
  let attrSeqRaw ← pyGetD (pyOr sampleAttrs (PyVal.dict [])) "SAMPLE_ATTRIBUTE" (PyVal.list [])
  let entries ← pyIter (pyOr attrSeqRaw (PyVal.list []))
  let attrs ← attrsOf entries []
  pure (mkMeta srx srs biosample sample_title study_title study_abstract organism attrs)

/-- `extract_metadata_from_sra_xml` (lines 35-112 of `sra_tissue_classifier.py`). -/
def extract_metadata_from_sra_xml (sra_xml : PyVal) : Except PyErr PyVal := do
  let pkg ← getPackage sra_xml
  if truthy pkg then extractFromPkg pkg else pure (PyVal.dict [])

/-- Outcome of the BioSample HTTP request in `try_fetch_biosample_json`:
either the request raised (transport error), or it produced a status code and
a body whose `.json()` parse either raised (`Option.none`) or yielded a value. -/
inductive HttpOutcome where
  | err : HttpOutcome
  | resp : Nat → Option PyVal → HttpOutcome

/-- `try_fetch_biosample_json` (lines 115-127): `None` for a falsy accession,
a raised request, a non-200 status or an unparseable body; the parsed JSON
value (of any shape) otherwise. -/
def try_fetch_biosample_json (o : HttpOutcome) (biosample_accession : PyVal) : Option PyVal :=
  if !truthy biosample_accession then Option.none
  else
    match o with
    | HttpOutcome.err => Option.none
    | HttpOutcome.resp code body => if code = 200 then body else Option.none

/-- The five keys probed on the BioSample record during enrichment. -/
def enrichKeys : List String := ["organism", "isolation_source", "tissue", "cell_type", "cell_line"]

/-- Lines 27-31 of `augment_csv.py` (same code at lines 210-214 of
`sra_tissue_classifier.py`): collect `"k: v"` for each probed key whose value
is a non-empty string; `bs.get` raises on a non-dict record. -/
def enrichLines (bs : PyVal) : Except PyErr (List String) :=
  enrichKeys.foldlM
    (fun acc k => do
      let v ← pyGet bs k
      match v with
      | PyVal.str s => if s ≠ "" then pure (acc ++ [k ++ ": " ++ s]) else pure acc
      | _ => pure acc)
    []

/-- The body of the enrichment `try:` block (lines 25-33 of `augment_csv.py`):
build the extra lines and append them to `meta["metadata_text"]`. -/
def enrichTry (meta : PyVal) (bs : PyVal) : Except PyErr PyVal := do
  let parts ← enrichLines bs
  if parts ≠ [] then do
    let cur ← pyIndex meta "metadata_text"
    match cur with
    | PyVal.str s =>
      pure (pySetItem meta "metadata_text" (PyVal.str (s ++ "\n" ++ String.intercalate "\n" parts)))
    | _ => Except.error PyErr.typeError
  else pure meta

/-- Lines 24-35 of `augment_csv.py`: run enrichment only for a truthy fetched
record, swallowing any exception from the `try:` block (`except: pass`). -/
def enrich_meta (meta : PyVal) (bj : Option PyVal) : PyVal :=
  match bj with
  | Option.none => meta
  | some bs =>
    if truthy bs then
      match enrichTry meta bs with
      | Except.ok m => m
      | Except.error _ => meta
    else meta

/-- The constant prefix of the Gemini prompt (lines 133-139). -/
def promptTemplate : String :=
  "You are analyzing scRNA-seq sample metadata to determine tissue/cell-type of origin.\nFrom the metadata below, produce:\n1) a five-word summary of the sample\x27s tissue or cell type of origin;\n2) the best-guess tissue type as a single concise noun phrase.\nReturn strict JSON with keys: summary_5_words, tissue_guess.\n\nMetadata:\n"

/-- `build_prompt` (lines 130-141): fixed template around `metadata_text`. -/
def build_prompt (metadata : PyVal) : Except PyErr String := do
  let context ← pyGetD metadata "metadata_text" (PyVal.str "")
  pure (promptTemplate ++ pyStr context ++ "\n")

/-- The degraded parse result `{"summary_5_words": "", "tissue_guess": ""}`. -/
def emptyDataDict : PyVal :=
  PyVal.dict [("summary_5_words", PyVal.str ""), ("tissue_guess", PyVal.str "")]

/-- `text.find` of the opening brace (line 158). -/
def braceStart (text : String) : Int := pyFind text lbraceChar

/-- `text.rfind` of the closing brace (line 159). -/
def braceEnd (text : String) : Int := pyRFind text rbraceChar

/-- Line 160: `start != -1 and end != -1 and end > start`. -/
def bracePairOk (text : String) : Bool :=
  braceStart text ≠ -1 && braceEnd text ≠ -1 && braceEnd text > braceStart text

/-- `text[start:end + 1]` — the brace-delimited substring, inclusive (line 162). -/
def braceSub (text : String) : String := pySlice text (braceStart text) (braceEnd text + 1)

/-- Lines 153-166 of `call_gemini`: the two-stage lenient parse of the reply
text, with the guaranteed dict fallback. -/
def call_gemini_data (text : String) : PyVal :=
  match json_loads text with
  | some d => d
  | Option.none =>
    if bracePairOk text then
      match json_loads (braceSub text) with
      | some d => d
      | Option.none => emptyDataDict
    else emptyDataDict

/-- Lines 168-172: `(data.get("summary_5_words") or "").strip()` followed by
the 5-word truncation. A truthy non-string field value raises
`AttributeError` from `.strip()`. -/
def normalize_summary (data : PyVal) : Except PyErr String := do
  let v ← pyGet data "summary_5_words"
  match pyOr v (PyVal.str "") with
  | PyVal.str s0 =>
    let s := pyStrip s0
    if s ≠ "" then
      let ws := pySplitWs s
      if ws.length > 5 then pure (String.intercalate " " (ws.take 5)) else pure s
    else pure s
  | _ => Except.error PyErr.attributeError

/-- Line 173: `(data.get("tissue_guess") or "").strip()`. -/
def normalize_tissue (data : PyVal) : Except PyErr String := do
  let v ← pyGet data "tissue_guess"
  match pyOr v (PyVal.str "") with
  | PyVal.str s => pure (pyStrip s)
  | _ => Except.error PyErr.attributeError

/-- `call_gemini` (lines 144-174), modelled from the reply text onward: the
backend interaction (`genai` configuration and `generate_content`) is external
I/O, so the function takes the reply `resp.text or ""` as its input and models
the parse-and-normalize logic exactly. -/
def call_gemini (text : String) : Except PyErr PyVal := do
  let data := call_gemini_data text
  let summary ← normalize_summary data
  let tissue ← normalize_tissue data
  pure (PyVal.dict [("summary_5_words", PyVal.str summary), ("tissue_guess", PyVal.str tissue)])

/-- `srx_link` (lines 177-178). -/
def srx_link (srx : String) : String := "https://www.ncbi.nlm.nih.gov/sra/?term=" ++ srx

/-- `classify_row` (lines 16-43 of `augment_csv.py`), with the two remote
fetch results and the classifier reply abstracted as inputs: `sra_xml` is the
already-parsed archive record, `o` the BioSample request outcome and
`replyText` the Gemini reply text. -/
def classify_row (srx : String) (sra_xml : PyVal) (o : HttpOutcome) (replyText : String) :
    Except PyErr PyVal := do
  let meta ← extract_metadata_from_sra_xml sra_xml
  if !truthy meta then Except.error PyErr.runtimeError
  else do
    let bacc ← pyGet meta "biosample"
    let bj := try_fetch_biosample_json o bacc
    let meta2 := enrich_meta meta bj
    let _prompt ← build_prompt meta2
    let resp ← call_gemini replyText
    let s ← pyGetD resp "summary_5_words" (PyVal.str "")
    let t ← pyGetD resp "tissue_guess" (PyVal.str "")
    let srxv ← pyGet meta2 "srx"
    pure (PyVal.dict
      [("srx_link", PyVal.str (srx_link (pyStr (pyOr srxv (PyVal.str srx))))),
       ("summary_5_words", s), ("tissue_guess", t)])

/-- The three columns appended by the batch driver (line 61 of `augment_csv.py`). -/
def new_cols : List String := ["srx_link", "summary_5_words", "tissue_guess"]

/-- Line 62: `fieldnames + [c for c in new_cols if c not in fieldnames]`. -/
def augmented_fields (fieldnames : List String) : List String :=
  fieldnames ++ new_cols.filter (fun c => !fieldnames.contains c)

/-- `out.setdefault(k, v)`: insert only when the key is absent. -/
def setdefault (m : List (String × String)) (k v : String) : List (String × String) :=
  match assocGet m k with
  | some _ => m
  | Option.none => m ++ [(k, v)]

/-- `out.update(res)`: assign every pair of `res` in order. -/
def dictUpdate (m res : List (String × String)) : List (String × String) :=
  res.foldl (fun acc kv => assocSet acc kv.1 kv.2) m

/-- Line 68: `(row.get(first_col) or "").strip() if first_col else ""`. -/
def row_srx (row : List (String × String)) (firstCol : Option String) : String :=
  match firstCol with
  | some c => pyStrip ((assocGet row c).getD "")
  | Option.none => ""

/-- Lines 68-78 of `augment_csv.py` `main`, for one input row: classify when
the first-column value is non-empty, merging the result on success and
running `setdefault(c, "")` over the new columns when classification raised.
The classifier behaviour is abstracted as `classify`. -/
def process_row (row : List (String × String)) (firstCol : Option String)
    (classify : String → Except Unit (List (String × String))) : List (String × String) :=
  let srx := row_srx row firstCol
  if srx ≠ "" then
    match classify srx with
    | Except.ok res => dictUpdate row res
    | Except.error _ => new_cols.foldl (fun acc c => setdefault acc c "") row
  else row

/-- Lines 80-84: `csv.DictWriter` writes `restval=""` (its default) for any
header column missing from the row dict. -/
def written_cell (out : List (String × String)) (c : String) : String :=
  (assocGet out c).getD ""

/-- Skimming an attribute entry the way lines 76-79 do: `some (tag.lower(), value)`
for a dict entry with a truthy string tag, `Option.none` for entries the loop skips. -/
def taggedValue (a : PyVal) : Option (String × PyVal) :=
  match a with
  | PyVal.dict kvs =>
    match (assocGet kvs "TAG").getD PyVal.none with
    | PyVal.str s =>
      if s ≠ "" then some (strLower s, (assocGet kvs "VALUE").getD PyVal.none)
      else Option.none
    | _ => Option.none
  | _ => Option.none

/-- Specification-side description of the attribute map: the value stored under
`k` is that of the last entry (in list order) whose lower-cased tag is `k`. -/
def lastValueFor : List PyVal → String → Option PyVal
  | [], _ => Option.none
  | a :: rest, k =>
    match lastValueFor rest k with
    | some v => some v
    | Option.none =>
      match taggedValue a with
      | some p => if p.1 = k then some p.2 else Option.none
      | Option.none => Option.none

/-- The rendered attribute lines `"key: value"`, in map order (lines 95-96). -/
def attrLines (attrs : List (String × PyVal)) : List String :=
  attrs.map (fun kv => kv.1 ++ ": " ++ pyStr kv.2)

/-- Specification-side description of the header lines of `metadata_text`:
the four fields in fixed order, each kept exactly when truthy. -/
def headerLines (study_title study_abstract sample_title organism : PyVal) : List String :=
  ([("Study title: ", study_title), ("Study abstract: ", study_abstract),
    ("Sample title: ", sample_title), ("Organism: ", organism)] :
      List (String × PyVal)).filterMap
    (fun p => if truthy p.2 then some (p.1 ++ pyStr p.2) else Option.none)

theorem exceptBind_ok {α β : Type} (e : Except PyErr α) (k : α → Except PyErr β) (v : β) :
    (e >>= k) = Except.ok v ↔ ∃ a, e = Except.ok a ∧ k a = Except.ok v := by
  cases e <;> simp [Bind.bind, Except.bind]

theorem exceptPure_ok {α : Type} (a v : α) :
    (pure a : Except PyErr α) = Except.ok v ↔ a = v := by
  simp [pure, Except.pure]

@[simp] theorem ok_bind {α β : Type} (a : α) (k : α → Except PyErr β) :
    (Except.ok a >>= k) = k a := rfl

@[simp] theorem error_bind {β : Type} (e : PyErr) (k : PyVal → Except PyErr β) :
    ((Except.error e : Except PyErr PyVal) >>= k) = Except.error e := rfl

theorem assocGet_append {α : Type} (m m2 : List (String × α)) (c : String) :
    assocGet (m ++ m2) c =
      match assocGet m c with
      | some x => some x
      | Option.none => assocGet m2 c := by
  induction m with
  | nil => simp [assocGet]
  | cons hd tl ih =>
    obtain ⟨k, w⟩ := hd
    by_cases hk : k = c
    · simp [assocGet, hk]
    · simp [assocGet, hk, ih]

theorem assocGet_assocSet {α : Type} (m : List (String × α)) (k c : String) (v : α) :
    assocGet (assocSet m k v) c = if k = c then some v else assocGet m c := by
  induction m with
  | nil => simp [assocSet, assocGet]
  | cons hd tl ih =>
    obtain ⟨k1, w⟩ := hd
    by_cases h1 : k1 = k
    · subst h1
      by_cases h2 : k1 = c <;> simp [assocSet, assocGet, h2]
    · by_cases h2 : k1 = c
      · subst h2
        have : k ≠ k1 := fun hh => h1 hh.symm
        simp [assocSet, assocGet, h1, this]
      · simp [assocSet, assocGet, h1, h2, ih]

theorem buildParts_eq (st sa ti org : PyVal) (attrs : List (String × PyVal)) :
    buildParts st sa ti org attrs = headerLines st sa ti org ++ attrLines attrs := by
  unfold buildParts headerLines attrLines
  cases h1 : truthy st <;> cases h2 : truthy sa <;> cases h3 : truthy ti <;>
    cases h4 : truthy org <;> simp [h1, h2, h3, h4, List.filterMap]

theorem extractFromPkg_shape {pkg v : PyVal} (h : extractFromPkg pkg = Except.ok v) :
    ∃ srx srs bios ti st sa org attrs, v = mkMeta srx srs bios ti st sa org attrs := by
  unfold extractFromPkg at h
  simp only [exceptBind_ok, exceptPure_ok] at h
  obtain ⟨exp, -, sam, -, stu, -, srx, -, srs, -, ids, -, ext, -, bios, -, ti, -, d1, -,
    st, -, d2, -, sa, -, sn, -, org, -, sat, -, asr, -, ent, -, attrs, -, hv⟩ := h
  exact ⟨srx, srs, bios, ti, st, sa, org, attrs, hv.symm⟩

theorem extract_ok_cases {xml v : PyVal} (h : extract_metadata_from_sra_xml xml = Except.ok v) :
    v = PyVal.dict [] ∨
      ∃ srx srs bios ti st sa org attrs, v = mkMeta srx srs bios ti st sa org attrs := by
  unfold extract_metadata_from_sra_xml at h
  simp only [exceptBind_ok] at h
  obtain ⟨pkg, -, h2⟩ := h
  cases htr : truthy pkg
  · rw [htr] at h2
    simp only [Bool.false_eq_true, if_false, exceptPure_ok] at h2
    exact Or.inl h2.symm
  · rw [htr] at h2
    simp only [if_true] at h2
    exact Or.inr (extractFromPkg_shape h2)

theorem extract_ok_dict {xml v : PyVal} (h : extract_metadata_from_sra_xml xml = Except.ok v) :
    ∃ kvs, v = PyVal.dict kvs := by
  rcases extract_ok_cases h with hv | ⟨a, b, c, d, e, f, g, attrs, hv⟩
  · exact ⟨[], hv⟩
  · exact ⟨_, hv⟩

theorem lastValueFor_cons (a : PyVal) (rest : List PyVal) (k : String) :
    lastValueFor (a :: rest) k =
      match lastValueFor rest k with
      | some v => some v
      | Option.none =>
        match taggedValue a with
        | some p => if p.1 = k then some p.2 else Option.none
        | Option.none => Option.none := rfl

theorem attrsOf_lookup (entries : List PyVal) :
    ∀ (acc m : List (String × PyVal)), attrsOf entries acc = Except.ok m → ∀ k,
      assocGet m k =
        match lastValueFor entries k with
        | some v => some v
        | Option.none => assocGet acc k := by
  induction entries with
  | nil =>
    intro acc m h k
    unfold attrsOf at h
    cases h
    simp [lastValueFor]
  | cons a rest ih =>
    intro acc m h k
    unfold attrsOf at h
    simp only [exceptBind_ok] at h
    obtain ⟨tag, htag, val, hval, h2⟩ := h
    cases a with
    | dict kvs =>
      have htag2 : tag = (assocGet kvs "TAG").getD PyVal.none := by
        simpa [pyGet, pyGetD] using htag.symm
      have hval2 : val = (assocGet kvs "VALUE").getD PyVal.none := by
        simpa [pyGet, pyGetD] using hval.symm
      cases htr : truthy tag
      · rw [htr] at h2
        simp only [Bool.false_eq_true, if_false] at h2
        have htv : taggedValue (PyVal.dict kvs) = Option.none := by
          simp only [taggedValue]
          rw [← htag2]
          cases tag with
          | str s =>
            have hs : s = "" := by
              by_contra hc
              simp [truthy, hc] at htr
            subst hs
            rfl
          | none => rfl
          | bool b => rfl
          | int n => rfl
          | list xs => rfl
          | dict kvs2 => rfl
        rw [ih acc m h2 k, lastValueFor_cons, htv]
        cases hr : lastValueFor rest k <;> simp [hr]
      · rw [htr] at h2
        simp only [if_true] at h2
        cases tag with
        | str s =>
          have hs : s ≠ "" := by
            by_contra hc
            rw [hc] at htr
            simp [truthy] at htr
          have htv : taggedValue (PyVal.dict kvs) = some (strLower s, val) := by
            simp only [taggedValue]
            rw [← htag2]
            simp [hs, ← hval2]
          rw [ih _ m h2 k, lastValueFor_cons, htv]
          cases hr : lastValueFor rest k with
          | some v => simp [hr]
          | none =>
            by_cases hk : strLower s = k <;> simp [hr, hk, assocGet_assocSet]
        | none => exact absurd h2 (by simp)
        | bool b => exact absurd h2 (by simp)
        | int n => exact absurd h2 (by simp)
        | list xs => exact absurd h2 (by simp)
        | dict kvs2 => exact absurd h2 (by simp)
    | none => exact absurd htag (by simp [pyGet, pyGetD])
    | bool b => exact absurd htag (by simp [pyGet, pyGetD])
    | int n => exact absurd htag (by simp [pyGet, pyGetD])
    | str s => exact absurd htag (by simp [pyGet, pyGetD])
    | list xs => exact absurd htag (by simp [pyGet, pyGetD])

theorem enrich_meta_preserves (kvs : List (String × PyVal)) (bj : Option PyVal) :
    ∃ kvs2, enrich_meta (PyVal.dict kvs) bj = PyVal.dict kvs2 ∧
      ∀ c, c ≠ "metadata_text" → assocGet kvs2 c = assocGet kvs c := by
  cases bj with
  | none => exact ⟨kvs, rfl, fun c _ => rfl⟩
  | some bs =>
    have hEq : enrich_meta (PyVal.dict kvs) (some bs) =
        (if truthy bs = true then
          match enrichTry (PyVal.dict kvs) bs with
          | Except.ok m => m
          | Except.error _ => PyVal.dict kvs
        else PyVal.dict kvs) := rfl
    rw [hEq]
    cases htr : truthy bs
    · simp only [Bool.false_eq_true, if_false]
      exact ⟨kvs, rfl, fun c _ => rfl⟩
    · simp only [if_true]
      cases he : enrichTry (PyVal.dict kvs) bs with
      | error e => exact ⟨kvs, rfl, fun c _ => rfl⟩
      | ok m =>
        unfold enrichTry at he
        simp only [exceptBind_ok] at he
        obtain ⟨parts, -, he2⟩ := he
        by_cases hp : parts ≠ []
        · rw [if_pos hp] at he2
          simp only [exceptBind_ok] at he2
          obtain ⟨cur, hcur, he3⟩ := he2
          cases cur with
          | str s =>
            simp only [exceptPure_ok] at he3
            refine ⟨assocSet kvs "metadata_text"
              (PyVal.str (s ++ "\n" ++ String.intercalate "\n" parts)), ?_, ?_⟩
            · exact he3.symm
            · intro c hc
              rw [assocGet_assocSet]
              exact if_neg (fun hh => hc hh.symm)
          | none => exact absurd he3 (by simp)
          | bool b => exact absurd he3 (by simp)
          | int n => exact absurd he3 (by simp)
          | list xs => exact absurd he3 (by simp)
          | dict kvs3 => exact absurd he3 (by simp)
        · rw [if_neg hp] at he2
          simp only [exceptPure_ok] at he2
          exact ⟨kvs, he2.symm, fun c _ => rfl⟩

theorem enrich_meta_nonmapping (meta v : PyVal) (h : ∀ kvs, v ≠ PyVal.dict kvs) :
    enrich_meta meta (some v) = meta := by
  cases v with
  | dict kvs => exact absurd rfl (h kvs)
  | none => rfl
  | bool b =>
    show (if truthy (PyVal.bool b) = true then
        match enrichTry meta (PyVal.bool b) with
        | Except.ok m => m
        | Except.error _ => meta
      else meta) = meta
    cases b <;> rfl
  | int n =>
    show (if truthy (PyVal.int n) = true then
        match enrichTry meta (PyVal.int n) with
        | Except.ok m => m
        | Except.error _ => meta
      else meta) = meta
    split <;> rfl
  | str s =>
    show (if truthy (PyVal.str s) = true then
        match enrichTry meta (PyVal.str s) with
        | Except.ok m => m
        | Except.error _ => meta
      else meta) = meta
    split <;> rfl
  | list xs =>
    show (if truthy (PyVal.list xs) = true then
        match enrichTry meta (PyVal.list xs) with
        | Except.ok m => m
        | Except.error _ => meta
      else meta) = meta
    split <;> rfl

theorem classify_row_outcome_independent (srx : String) (xml : PyVal) (t : String)
    (o1 o2 : HttpOutcome) : classify_row srx xml o1 t = classify_row srx xml o2 t := by
  unfold classify_row
  cases hx : extract_metadata_from_sra_xml xml with
  | error e => rfl
  | ok meta =>
    obtain ⟨kvs, rfl⟩ := extract_ok_dict hx
    simp only [ok_bind]
    cases htr : !truthy (PyVal.dict kvs)
    · simp only [Bool.false_eq_true, if_false]
      have hb : pyGet (PyVal.dict kvs) "biosample" =
          Except.ok ((assocGet kvs "biosample").getD PyVal.none) := rfl
      rw [hb]
      simp only [ok_bind]
      obtain ⟨kvs1, h1, hs1⟩ := enrich_meta_preserves kvs
        (try_fetch_biosample_json o1 ((assocGet kvs "biosample").getD PyVal.none))
      obtain ⟨kvs2, h2, hs2⟩ := enrich_meta_preserves kvs
        (try_fetch_biosample_json o2 ((assocGet kvs "biosample").getD PyVal.none))
      rw [h1, h2]
      have hp1 : build_prompt (PyVal.dict kvs1) =
          Except.ok (promptTemplate ++
            pyStr ((assocGet kvs1 "metadata_text").getD (PyVal.str "")) ++ "\n") := rfl
      have hp2 : build_prompt (PyVal.dict kvs2) =
          Except.ok (promptTemplate ++
            pyStr ((assocGet kvs2 "metadata_text").getD (PyVal.str "")) ++ "\n") := rfl
      rw [hp1, hp2]
      simp only [ok_bind]
      have hg1 : pyGet (PyVal.dict kvs1) "srx" =
          Except.ok ((assocGet kvs "srx").getD PyVal.none) := by
        have : pyGet (PyVal.dict kvs1) "srx" =
            Except.ok ((assocGet kvs1 "srx").getD PyVal.none) := rfl
        rw [this, hs1 "srx" (by decide)]
      have hg2 : pyGet (PyVal.dict kvs2) "srx" =
          Except.ok ((assocGet kvs "srx").getD PyVal.none) := by
        have : pyGet (PyVal.dict kvs2) "srx" =
            Except.ok ((assocGet kvs2 "srx").getD PyVal.none) := rfl
        rw [this, hs2 "srx" (by decide)]
      rw [hg1, hg2]
    · simp only [if_true]

/-- Specification-side predicate (amended C2): a field value that the
normalization handles without raising — absent, falsy, or a string. -/
def goodFieldVal (v : PyVal) : Bool :=
  !truthy v ||
    match v with
    | PyVal.str _ => true
    | _ => false

/-- Specification-side predicate (amended C2): parsed data on which the
normalization path cannot raise — a mapping whose two expected fields are
each absent, falsy, or strings. -/
def goodData (d : PyVal) : Bool :=
  match d with
  | PyVal.dict kvs =>
    goodFieldVal (agetD kvs "summary_5_words") && goodFieldVal (agetD kvs "tissue_guess")
  | _ => false

theorem normalize_summary_str (kvs : List (String × PyVal)) (s : String)
    (h : agetD kvs "summary_5_words" = PyVal.str s) :
    normalize_summary (PyVal.dict kvs) = Except.ok
      (if (pySplitWs (pyStrip s)).length > 5
       then String.intercalate " " ((pySplitWs (pyStrip s)).take 5)
       else pyStrip s) := by
  have hv : pyGet (PyVal.dict kvs) "summary_5_words" = Except.ok (PyVal.str s) := by
    have : pyGet (PyVal.dict kvs) "summary_5_words" =
        Except.ok (agetD kvs "summary_5_words") := rfl
    rw [this, h]
  unfold normalize_summary
  rw [hv, ok_bind]
  by_cases hs : s = ""
  · subst hs
    rfl
  · have hor : pyOr (PyVal.str s) (PyVal.str "") = PyVal.str s := by
      simp [pyOr, truthy, hs]
    rw [hor]
    show (let s1 := pyStrip s;
      if s1 ≠ "" then
        let ws := pySplitWs s1
        if ws.length > 5 then pure (String.intercalate " " (ws.take 5)) else pure s1
      else pure s1) = _
    by_cases h2 : pyStrip s = ""
    · have hsplit : pySplitWs (pyStrip s) = [] := by rw [h2]; rfl
      simp [h2, hsplit]
      rfl
    · by_cases h3 : (pySplitWs (pyStrip s)).length > 5 <;> simp [h2, h3] <;> rfl

theorem normalize_summary_falsy (kvs : List (String × PyVal))
    (h : truthy (agetD kvs "summary_5_words") = false) :
    normalize_summary (PyVal.dict kvs) = Except.ok "" := by
  have hv : pyGet (PyVal.dict kvs) "summary_5_words" =
      Except.ok (agetD kvs "summary_5_words") := rfl
  unfold normalize_summary
  rw [hv, ok_bind]
  have hor : pyOr (agetD kvs "summary_5_words") (PyVal.str "") = PyVal.str "" := by
    simp [pyOr, h]
  rw [hor]
  rfl

theorem normalize_summary_bad (kvs : List (String × PyVal))
    (h : truthy (agetD kvs "summary_5_words") = true)
    (h2 : ∀ s, agetD kvs "summary_5_words" ≠ PyVal.str s) :
    normalize_summary (PyVal.dict kvs) = Except.error PyErr.attributeError := by
  have hv : pyGet (PyVal.dict kvs) "summary_5_words" =
      Except.ok (agetD kvs "summary_5_words") := rfl
  unfold normalize_summary
  rw [hv, ok_bind]
  have hor : pyOr (agetD kvs "summary_5_words") (PyVal.str "") =
      agetD kvs "summary_5_words" := by
    simp [pyOr, h]
  rw [hor]
  cases hval : agetD kvs "summary_5_words" with
  | str s => exact absurd hval (h2 s)
  | none => rfl
  | bool b => rfl
  | int n => rfl
  | list xs => rfl
  | dict kvs2 => rfl

theorem normalize_tissue_str (kvs : List (String × PyVal)) (s : String)
    (h : agetD kvs "tissue_guess" = PyVal.str s) :
    normalize_tissue (PyVal.dict kvs) = Except.ok (pyStrip s) := by
  have hv : pyGet (PyVal.dict kvs) "tissue_guess" = Except.ok (PyVal.str s) := by
    have : pyGet (PyVal.dict kvs) "tissue_guess" =
        Except.ok (agetD kvs "tissue_guess") := rfl
    rw [this, h]
  unfold normalize_tissue
  rw [hv, ok_bind]
  by_cases hs : s = ""
  · subst hs
    rfl
  · have hor : pyOr (PyVal.str s) (PyVal.str "") = PyVal.str s := by
      simp [pyOr, truthy, hs]
    rw [hor]
    rfl

theorem normalize_tissue_falsy (kvs : List (String × PyVal))
    (h : truthy (agetD kvs "tissue_guess") = false) :
    normalize_tissue (PyVal.dict kvs) = Except.ok "" := by
  have hv : pyGet (PyVal.dict kvs) "tissue_guess" =
      Except.ok (agetD kvs "tissue_guess") := rfl
  unfold normalize_tissue
  rw [hv, ok_bind]
  have hor : pyOr (agetD kvs "tissue_guess") (PyVal.str "") = PyVal.str "" := by
    simp [pyOr, h]
  rw [hor]
  rfl

theorem call_gemini_of_dataEmpty (text : String)
    (h : call_gemini_data text = emptyDataDict) :
    call_gemini text = Except.ok emptyDataDict := by
  unfold call_gemini
  rw [h]
  rfl

theorem assocGet_setdefault (m : List (String × String)) (k v c : String) :
    assocGet (setdefault m k v) c =
      match assocGet m c with
      | some x => some x
      | Option.none => if k = c then some v else Option.none := by
  unfold setdefault
  cases hk : assocGet m k with
  | some x =>
    cases hc : assocGet m c with
    | some y => simp [hc]
    | none =>
      by_cases hkc : k = c
      · subst hkc
        rw [hk] at hc
        cases hc
      · simp [hc, hkc]
  | none =>
    rw [assocGet_append]
    cases hc : assocGet m c with
    | some y => simp
    | none => simp [assocGet]

theorem written_fold_setdefault (row : List (String × String)) (c : String)
    (hc : c ∈ new_cols) :
    written_cell (new_cols.foldl (fun acc k => setdefault acc k "") row) c =
      (assocGet row c).getD "" := by
  have hfold : new_cols.foldl (fun acc k => setdefault acc k "") row =
      setdefault (setdefault (setdefault row "srx_link" "") "summary_5_words" "")
        "tissue_guess" "" := rfl
  unfold written_cell
  rw [hfold, assocGet_setdefault, assocGet_setdefault, assocGet_setdefault]
  simp only [new_cols, List.mem_cons, List.not_mem_nil, or_false] at hc
  rcases hc with rfl | rfl | rfl
  · cases hrow : assocGet row "srx_link" <;> simp [hrow]
  · cases hrow : assocGet row "summary_5_words" <;> simp [hrow]
  · cases hrow : assocGet row "tissue_guess" <;> simp [hrow]

/-- `Except` success as a Bool (used to speak about a failed classification). -/
def exceptIsOk {ε α : Type} : Except ε α → Bool
  | Except.ok _ => true
  | Except.error _ => false

/-- Claim C7's reading of alias resolution: the first alias whose KEY is
present wins, regardless of the value stored there. -/
def presenceAliasValue (attrs : List (String × PyVal)) (k1 k2 : String) : PyVal :=
  match assocGet attrs k1 with
  | some v => v
  | Option.none => agetD attrs k2

/-- Claim C9's reading of the header lines: every PRESENT field (value not
`None`) is rendered, even an empty string. -/
def presentHeaderLines (study_title study_abstract sample_title organism : PyVal) :
    List String :=
  ([("Study title: ", study_title), ("Study abstract: ", study_abstract),
    ("Sample title: ", sample_title), ("Organism: ", organism)] :
      List (String × PyVal)).filterMap
    (fun p =>
      match p.2 with
      | PyVal.none => Option.none
      | v => some (p.1 ++ pyStr v))

/-- A classifier stub that always raises (models a per-row failure). -/
def failClassify : String → Except Unit (List (String × String)) :=
  fun _ => Except.error ()

/-- All the ways the claim C6 lists for the secondary fetch to yield nothing:
falsy accession, transport error, non-success status, malformed (unparseable)
or non-mapping body. -/
def enrichmentBarren (acc : PyVal) (o : HttpOutcome) : Bool :=
  !truthy acc ||
    match o with
    | HttpOutcome.err => true
    | HttpOutcome.resp code body =>
      decide (code ≠ 200) ||
        (match body with
         | Option.none => true
         | some (PyVal.dict _) => false
         | some _ => true)

theorem assocGet_mem {α : Type} (m : List (String × α)) (k : String) (v : α)
    (h : assocGet m k = some v) : (k, v) ∈ m := by
  induction m with
  | nil => cases h
  | cons hd tl ih =>
    obtain ⟨k1, w⟩ := hd
    by_cases hk : k1 = k
    · subst hk
      simp [assocGet] at h
      subst h
      exact List.mem_cons_self _ _
    · simp [assocGet, hk] at h
      exact List.mem_cons_of_mem _ (ih h)

theorem normalize_summary_of_good (kvs : List (String × PyVal))
    (hg : goodFieldVal (agetD kvs "summary_5_words") = true) :
    ∃ s, normalize_summary (PyVal.dict kvs) = Except.ok s := by
  cases htr : truthy (agetD kvs "summary_5_words")
  · exact ⟨"", normalize_summary_falsy kvs htr⟩
  · cases hv : agetD kvs "summary_5_words" with
    | str s => exact ⟨_, normalize_summary_str kvs s hv⟩
    | none => rw [hv] at htr; simp [truthy] at htr
    | bool b => rw [hv] at hg htr; simp [goodFieldVal, htr] at hg
    | int n => rw [hv] at hg htr; simp [goodFieldVal, htr] at hg
    | list xs => rw [hv] at hg htr; simp [goodFieldVal, htr] at hg
    | dict kvs2 => rw [hv] at hg htr; simp [goodFieldVal, htr] at hg

theorem normalize_tissue_of_good (kvs : List (String × PyVal))
    (hg : goodFieldVal (agetD kvs "tissue_guess") = true) :
    ∃ t, normalize_tissue (PyVal.dict kvs) = Except.ok t := by
  cases htr : truthy (agetD kvs "tissue_guess")
  · exact ⟨"", normalize_tissue_falsy kvs htr⟩
  · cases hv : agetD kvs "tissue_guess" with
    | str s => exact ⟨_, normalize_tissue_str kvs s hv⟩
    | none => rw [hv] at htr; simp [truthy] at htr
    | bool b => rw [hv] at hg htr; simp [goodFieldVal, htr] at hg
    | int n => rw [hv] at hg htr; simp [goodFieldVal, htr] at hg
    | list xs => rw [hv] at hg htr; simp [goodFieldVal, htr] at hg
    | dict kvs2 => rw [hv] at hg htr; simp [goodFieldVal, htr] at hg

theorem callGemini_degraded (text : String) (h1 : json_loads text = Option.none)
    (h2 : bracePairOk text = false ∨ json_loads (braceSub text) = Option.none) :
    call_gemini text = Except.ok emptyDataDict := by
  apply call_gemini_of_dataEmpty
  unfold call_gemini_data
  rw [h1]
  rcases h2 with h2 | h2
  · simp [h2]
  · by_cases hp : bracePairOk text = true
    · simp [hp, h2]
    · simp at hp
      simp [hp]

/-- C1. Claim: for every raw record with no experiment package (absent, null,
or an empty list), `extract_metadata_from_sra_xml` returns an empty structure
and does not raise. The code violates the empty-list case: `pkg = pkg[0]`
runs before the `if not pkg` guard, so an empty `EXPERIMENT_PACKAGE` list
raises `IndexError`, while the absent and null cases do return `{}`. This
theorem evaluates the model at the failing input and at the two good cases. -/
theorem claim_C1 :
    extract_metadata_from_sra_xml (PyVal.dict [("EXPERIMENT_PACKAGE_SET",
        PyVal.dict [("EXPERIMENT_PACKAGE", PyVal.list [])])]) =
      Except.error PyErr.indexError ∧
    extract_metadata_from_sra_xml (PyVal.dict []) = Except.ok (PyVal.dict []) ∧
    extract_metadata_from_sra_xml (PyVal.dict [("EXPERIMENT_PACKAGE_SET",
        PyVal.dict [("EXPERIMENT_PACKAGE", PyVal.none)])]) = Except.ok (PyVal.dict []) :=
  ⟨rfl, rfl, rfl⟩

/-- C2 (amended). For every reply text whose parsed data (whole text, embedded
brace block, or the degraded fallback) is a mapping in which each of
`summary_5_words` and `tissue_guess` is absent, falsy, or a string,
`call_gemini` returns both fields present as strings; and on total parse
failure both fields are the empty string. (As frozen the claim is false: a
reply parsing to a non-mapping, or a mapping with a truthy non-string field
value, raises `AttributeError` — see the counterexample.) -/
theorem claim_C2 : ∀ text : String,
    (goodData (call_gemini_data text) = true →
      ∃ s t, call_gemini text = Except.ok (PyVal.dict
        [("summary_5_words", PyVal.str s), ("tissue_guess", PyVal.str t)])) ∧
    ((json_loads text = Option.none ∧
        (bracePairOk text = false ∨ json_loads (braceSub text) = Option.none)) →
      call_gemini text = Except.ok emptyDataDict) := by
  intro text
  constructor
  · intro hg
    cases hd : call_gemini_data text with
    | dict kvs =>
      rw [hd] at hg
      simp only [goodData, Bool.and_eq_true] at hg
      obtain ⟨s, hsumm⟩ := normalize_summary_of_good kvs hg.1
      obtain ⟨t, htis⟩ := normalize_tissue_of_good kvs hg.2
      refine ⟨s, t, ?_⟩
      have hcg : call_gemini text =
          (normalize_summary (call_gemini_data text) >>= fun summary =>
            normalize_tissue (call_gemini_data text) >>= fun tissue =>
              pure (PyVal.dict [("summary_5_words", PyVal.str summary),
                ("tissue_guess", PyVal.str tissue)])) := rfl
      rw [hcg, hd, hsumm, ok_bind, htis, ok_bind]
      rfl
    | none => rw [hd] at hg; simp [goodData] at hg
    | bool b => rw [hd] at hg; simp [goodData] at hg
    | int n => rw [hd] at hg; simp [goodData] at hg
    | str s => rw [hd] at hg; simp [goodData] at hg
    | list xs => rw [hd] at hg; simp [goodData] at hg
  · intro h
    exact callGemini_degraded text h.1 h.2

/-- C2 counterexample: the reply `"[]"` parses as a whole to a (non-mapping)
JSON array, and `data.get(...)` then raises `AttributeError`, so `call_gemini`
raises instead of returning the two string fields. -/
theorem claim_C2_counterexample :
    json_loads "[]" = some (PyVal.list []) ∧
    call_gemini "[]" = Except.error PyErr.attributeError :=
  ⟨rfl, rfl⟩

/-- C2 witness: the empty reply hits both amended branches — its degraded
parse is a well-formed mapping, and the total-failure result is empty/empty. -/
theorem claim_C2_witness :
    (∃ s t, call_gemini "" = Except.ok (PyVal.dict
      [("summary_5_words", PyVal.str s), ("tissue_guess", PyVal.str t)])) ∧
    call_gemini "" = Except.ok emptyDataDict :=
  ⟨(claim_C2 "").1 rfl, (claim_C2 "").2 ⟨rfl, Or.inl rfl⟩⟩

/-- C3. For every reply text whose whole-text parse fails: when the first
opening brace precedes the last closing brace, the parser attempts the parse
of the inclusive brace-delimited substring; and when that parse also fails,
or no such brace pair exists, the result is the empty/empty mapping with no
exception. -/
theorem claim_C3 : ∀ text : String, json_loads text = Option.none →
    (bracePairOk text = true →
      call_gemini_data text = (json_loads (braceSub text)).getD emptyDataDict) ∧
    ((bracePairOk text = false ∨ json_loads (braceSub text) = Option.none) →
      call_gemini text = Except.ok emptyDataDict) := by
  intro text h1
  constructor
  · intro hp
    unfold call_gemini_data
    rw [h1]
    simp only [hp, if_true]
    cases hsub : json_loads (braceSub text) <;> simp
  · intro h2
    exact callGemini_degraded text h1 h2

/-- C3 witness: a braceless prose reply yields the empty/empty mapping. -/
theorem claim_C3_witness :
    call_gemini "no json here" = Except.ok emptyDataDict :=
  (claim_C3 "no json here" rfl).2 (Or.inl rfl)

/-- C4 (amended). For a parsed mapping: a string-valued `summary_5_words`
normalizes to the first 5 whitespace tokens joined by single spaces when
there are more than 5, and to the trimmed input unchanged otherwise; a
missing or falsy field value normalizes to the empty string; but a truthy
non-string value raises `AttributeError` from `.strip()` (the frozen claim
said every non-string normalizes to the empty string — see counterexample). -/
theorem claim_C4 : ∀ kvs : List (String × PyVal),
    (∀ s, agetD kvs "summary_5_words" = PyVal.str s →
      normalize_summary (PyVal.dict kvs) = Except.ok
        (if (pySplitWs (pyStrip s)).length > 5
         then String.intercalate " " ((pySplitWs (pyStrip s)).take 5)
         else pyStrip s)) ∧
    (truthy (agetD kvs "summary_5_words") = false →
      normalize_summary (PyVal.dict kvs) = Except.ok "") ∧
    (truthy (agetD kvs "summary_5_words") = true →
      (∀ s, agetD kvs "summary_5_words" ≠ PyVal.str s) →
      normalize_summary (PyVal.dict kvs) = Except.error PyErr.attributeError) :=
  fun kvs =>
    ⟨fun s h => normalize_summary_str kvs s h,
     fun h => normalize_summary_falsy kvs h,
     fun h h2 => normalize_summary_bad kvs h h2⟩

/-- C4 counterexample: a parsed `summary_5_words` equal to the (truthy,
non-string) list `["a"]` does not normalize to the empty string — the whole
call raises `AttributeError`. The reply text shows the value is reachable
from a real reply. -/
theorem claim_C4_counterexample :
    call_gemini_data "\x7b\"summary_5_words\": [\"a\"]\x7d" =
      PyVal.dict [("summary_5_words", PyVal.list [PyVal.str "a"])] ∧
    normalize_summary (PyVal.dict [("summary_5_words", PyVal.list [PyVal.str "a"])]) =
      Except.error PyErr.attributeError ∧
    call_gemini "\x7b\"summary_5_words\": [\"a\"]\x7d" = Except.error PyErr.attributeError :=
  ⟨rfl, rfl, rfl⟩

/-- C4 witness: a 6-token summary is trimmed and truncated to its first 5
tokens joined by single spaces. -/
theorem claim_C4_witness :
    normalize_summary (PyVal.dict [("summary_5_words", PyVal.str " a b  c d e f ")]) =
      Except.ok "a b c d e" := by
  rw [(claim_C4 [("summary_5_words", PyVal.str " a b  c d e f ")]).1 " a b  c d e f " rfl]
  rfl

/-- C5 (amended). Every written output row has the three columns `srx_link`,
`summary_5_words`, `tissue_guess` in its header; and when classification
failed (raised) or was not performed (blank first-column value), each of the
three written cells equals the input row's own value for that column when the
input already had it, and the empty string otherwise. (As frozen the claim
said the cells are always empty on failure; a pre-existing input column
survives `setdefault` — see the counterexample.) -/
theorem claim_C5 : ∀ (fieldnames : List String) (row : List (String × String))
    (firstCol : Option String) (classify : String → Except Unit (List (String × String))),
    (∀ c ∈ new_cols, c ∈ augmented_fields fieldnames) ∧
    ((row_srx row firstCol = "" ∨ exceptIsOk (classify (row_srx row firstCol)) = false) →
      ∀ c ∈ new_cols, written_cell (process_row row firstCol classify) c =
        (assocGet row c).getD "") := by
  intro fieldnames row firstCol classify
  constructor
  · intro c hc
    by_cases hm : c ∈ fieldnames
    · exact List.mem_append_left _ hm
    · apply List.mem_append_right
      apply List.mem_filter.mpr
      refine ⟨hc, ?_⟩
      simp [hm]
  · intro hfail c hc
    unfold process_row
    by_cases hs : row_srx row firstCol = ""
    · rw [hs]
      simp only [ne_eq, not_true_eq_false, if_false]
      rfl
    · have hf : exceptIsOk (classify (row_srx row firstCol)) = false :=
        hfail.resolve_left hs
      rw [if_pos hs]
      cases hcl : classify (row_srx row firstCol) with
      | ok r =>
        rw [hcl] at hf
        exact absurd hf (by simp [exceptIsOk])
      | error e =>
        exact written_fold_setdefault row c hc

/-- C5 counterexample: an input row that already carries a non-empty
`srx_link` column keeps that value (not the empty string) when its
classification raises. -/
theorem claim_C5_counterexample :
    exceptIsOk (failClassify "SRX1") = false ∧
    written_cell (process_row [("srx", "SRX1"), ("srx_link", "PRE")] (some "srx") failClassify)
      "srx_link" = "PRE" ∧
    ("PRE" : String) ≠ "" :=
  ⟨rfl, rfl, by decide⟩

/-- C5 witness: the three columns are in the header, and a row whose first
column is blank gets empty strings for columns the input did not carry. -/
theorem claim_C5_witness :
    ("srx_link" ∈ augmented_fields ["id"]) ∧
    written_cell (process_row [("id", "")] (some "id") failClassify) "srx_link" = "" := by
  constructor
  · exact (claim_C5 ["id"] [("id", "")] (some "id") failClassify).1 "srx_link"
      (by simp [new_cols])
  · exact ((claim_C5 ["id"] [("id", "")] (some "id") failClassify).2 (Or.inl rfl)
      "srx_link" (by simp [new_cols])).trans rfl

/-- C6. For every biosample accession (falsy ones included) and every
behaviour of the secondary fetch listed by the claim (transport error,
non-success status, malformed or non-mapping body), enrichment leaves the
metadata — in particular `metadata_text` — exactly unchanged; and the
per-record classification returns the very same result whatever the fetch
outcome, so the enrichment step can never raise out of it. -/
theorem claim_C6 :
    (∀ (acc : PyVal) (o : HttpOutcome) (meta : PyVal), enrichmentBarren acc o = true →
      enrich_meta meta (try_fetch_biosample_json o acc) = meta) ∧
    (∀ (srx : String) (xml : PyVal) (t : String) (o1 o2 : HttpOutcome),
      classify_row srx xml o1 t = classify_row srx xml o2 t) := by
  constructor
  · intro acc o meta hb
    by_cases htr : truthy acc = true
    · cases o with
      | err =>
        have hfetch : try_fetch_biosample_json HttpOutcome.err acc = Option.none := by
          simp [try_fetch_biosample_json, htr]
        rw [hfetch]
        rfl
      | resp code body =>
        by_cases hcode : code = 200
        · subst hcode
          cases body with
          | none =>
            have hfetch : try_fetch_biosample_json (HttpOutcome.resp 200 Option.none) acc =
                Option.none := by
              simp [try_fetch_biosample_json, htr]
            rw [hfetch]
            rfl
          | some v =>
            have hnd : ∀ kvs, v ≠ PyVal.dict kvs := by
              intro kvs hv
              subst hv
              simp [enrichmentBarren, htr] at hb
            have hfetch : try_fetch_biosample_json (HttpOutcome.resp 200 (some v)) acc =
                some v := by
              simp [try_fetch_biosample_json, htr]
            rw [hfetch]
            exact enrich_meta_nonmapping meta v hnd
        · have hfetch : try_fetch_biosample_json (HttpOutcome.resp code body) acc =
              Option.none := by
            simp [try_fetch_biosample_json, htr, hcode]
          rw [hfetch]
          rfl
    · have h0 : truthy acc = false := by
        simpa using htr
      have hfetch : try_fetch_biosample_json o acc = Option.none := by
        simp [try_fetch_biosample_json, h0]
      rw [hfetch]
      rfl
  · exact classify_row_outcome_independent

/-- C6 witness: a transport error leaves the metadata unchanged, and the
classification result does not depend on the fetch outcome at a concrete
record. -/
theorem claim_C6_witness :
    enrich_meta (PyVal.dict []) (try_fetch_biosample_json HttpOutcome.err
      (PyVal.str "SAMN1")) = PyVal.dict [] ∧
    classify_row "SRX1" (PyVal.dict []) HttpOutcome.err "x" =
      classify_row "SRX1" (PyVal.dict [])
        (HttpOutcome.resp 200 (some (PyVal.dict []))) "x" :=
  ⟨claim_C6.1 (PyVal.str "SAMN1") HttpOutcome.err (PyVal.dict []) rfl,
   claim_C6.2 "SRX1" (PyVal.dict []) "x" HttpOutcome.err
     (HttpOutcome.resp 200 (some (PyVal.dict [])))⟩

/-- Archive record whose sample carries a `tissue` attribute with no value and
a `tissue_type` attribute with value `liver`. -/
def xmlAliasCex : PyVal :=
  PyVal.dict [("EXPERIMENT_PACKAGE_SET", PyVal.dict [("EXPERIMENT_PACKAGE",
    PyVal.dict [("SAMPLE", PyVal.dict [("SAMPLE_ATTRIBUTES", PyVal.dict [("SAMPLE_ATTRIBUTE",
      PyVal.list [PyVal.dict [("TAG", PyVal.str "tissue")],
                  PyVal.dict [("TAG", PyVal.str "tissue_type"),
                              ("VALUE", PyVal.str "liver")]])])])])])]

/-- The attribute map extracted from `xmlAliasCex`. -/
def attrsAliasCex : List (String × PyVal) :=
  [("tissue", PyVal.none), ("tissue_type", PyVal.str "liver")]

/-- The metadata extracted from `xmlAliasCex`. -/
def metaAliasCex : List (String × PyVal) :=
  [("srx", PyVal.none), ("srs", PyVal.none), ("biosample", PyVal.none),
   ("sample_title", PyVal.none), ("study_title", PyVal.none),
   ("study_abstract", PyVal.none), ("organism", PyVal.none),
   ("tissue", PyVal.str "liver"), ("cell_type", PyVal.none), ("cell_line", PyVal.none),
   ("attributes", PyVal.dict attrsAliasCex),
   ("metadata_text", PyVal.str "tissue: None\ntissue_type: liver")]

/-- C7 (amended). For every attribute map produced by extraction, each of the
domain fields is resolved by Python `or` over its alias pair: the first alias
wins exactly when its stored value is truthy; when it is absent or falsy the
field takes the second alias's value. (As frozen the claim resolved by KEY
presence; a present-but-falsy first alias falls through — see counterexample.) -/
theorem claim_C7 : ∀ (xml : PyVal) (m attrs : List (String × PyVal)),
    extract_metadata_from_sra_xml xml = Except.ok (PyVal.dict m) →
    assocGet m "attributes" = some (PyVal.dict attrs) →
    ((truthy (agetD attrs "tissue") = true →
        assocGet m "tissue" = some (agetD attrs "tissue")) ∧
     (truthy (agetD attrs "tissue") = false →
        assocGet m "tissue" = some (agetD attrs "tissue_type")) ∧
     (truthy (agetD attrs "cell_type") = true →
        assocGet m "cell_type" = some (agetD attrs "cell_type")) ∧
     (truthy (agetD attrs "cell_type") = false →
        assocGet m "cell_type" = some (agetD attrs "celltype")) ∧
     (truthy (agetD attrs "cell_line") = true →
        assocGet m "cell_line" = some (agetD attrs "cell_line")) ∧
     (truthy (agetD attrs "cell_line") = false →
        assocGet m "cell_line" = some (agetD attrs "cell-line"))) := by
  intro xml m attrs hx hattr
  rcases extract_ok_cases hx with hd | ⟨a, b, c, d, e, f, g, at2, hmk⟩
  · have hm : m = [] := by injection hd
    subst hm
    simp [assocGet] at hattr
  · unfold mkMeta at hmk
    have hm := hmk
    injection hm with hm2
    subst hm2
    have ha2 : some (PyVal.dict at2) = some (PyVal.dict attrs) := hattr
    have ha3 := Option.some.inj ha2
    injection ha3 with ha4
    subst ha4
    refine ⟨fun h => ?_, fun h => ?_, fun h => ?_, fun h => ?_, fun h => ?_, fun h => ?_⟩ <;>
      simp [assocGet, pyOr, h]

/-- C7 counterexample: in `xmlAliasCex` the key `tissue` IS present in the
extracted attribute map (with the null value of its value-less entry), yet the
extracted `tissue` field is `liver`, taken from `tissue_type` — presence does
not win; truthiness does. -/
theorem claim_C7_counterexample :
    extract_metadata_from_sra_xml xmlAliasCex = Except.ok (PyVal.dict metaAliasCex) ∧
    assocGet attrsAliasCex "tissue" = some PyVal.none ∧
    presenceAliasValue attrsAliasCex "tissue" "tissue_type" = PyVal.none ∧
    assocGet metaAliasCex "tissue" = some (PyVal.str "liver") ∧
    PyVal.str "liver" ≠ PyVal.none :=
  ⟨rfl, rfl, rfl, rfl, fun h => PyVal.noConfusion h⟩

/-- C7 witness: at `xmlAliasCex`, the falsy `tissue` value makes the field
fall back to the `tissue_type` alias. -/
theorem claim_C7_witness :
    assocGet metaAliasCex "tissue" = some (agetD attrsAliasCex "tissue_type") :=
  (claim_C7 xmlAliasCex metaAliasCex attrsAliasCex rfl rfl).2.1 rfl

/-- C8. For every sample attribute list the fold of lines 74-79 accepts, the
resulting attribute map holds, under each key, the value of the last entry in
list order whose lower-cased (truthy) tag equals that key — entries without a
tag contribute nothing, and a case-insensitive duplicate is won by the last
occurrence. -/
theorem claim_C8 : ∀ (entries : List PyVal) (m : List (String × PyVal)),
    attrsOf entries [] = Except.ok m → ∀ k, assocGet m k = lastValueFor entries k := by
  intro entries m h k
  rw [attrsOf_lookup entries [] m h k]
  cases hr : lastValueFor entries k <;> simp [assocGet]

/-- C8 witness: `Tissue` then `tissue` collide after lower-casing and the
second (last) value wins. -/
theorem claim_C8_witness :
    assocGet [("tissue", PyVal.str "brain")] "tissue" =
      lastValueFor [PyVal.dict [("TAG", PyVal.str "Tissue"), ("VALUE", PyVal.str "mouse")],
                    PyVal.dict [("TAG", PyVal.str "tissue"), ("VALUE", PyVal.str "brain")]]
        "tissue" :=
  claim_C8 [PyVal.dict [("TAG", PyVal.str "Tissue"), ("VALUE", PyVal.str "mouse")],
            PyVal.dict [("TAG", PyVal.str "tissue"), ("VALUE", PyVal.str "brain")]]
    [("tissue", PyVal.str "brain")] rfl "tissue"

/-- C9 (amended). For every extracted record (the non-empty shape), its
`metadata_text` is the newline-join of the four header fields — study title,
study abstract, sample title, organism, in exactly that order, each rendered
as `"Label: value"` exactly when TRUTHY — followed by every attribute rendered
as `"key: value"` in the attribute map's insertion order. (As frozen the claim
kept every PRESENT field; a present empty-string field is skipped — see the
counterexample.) -/
theorem claim_C9 : ∀ (xml : PyVal) (m attrs : List (String × PyVal)),
    extract_metadata_from_sra_xml xml = Except.ok (PyVal.dict m) →
    assocGet m "attributes" = some (PyVal.dict attrs) →
    assocGet m "metadata_text" = some (PyVal.str (String.intercalate "\n"
      (headerLines (agetD m "study_title") (agetD m "study_abstract")
        (agetD m "sample_title") (agetD m "organism") ++ attrLines attrs))) := by
  intro xml m attrs hx hattr
  rcases extract_ok_cases hx with hd | ⟨a, b, c, d, e, f, g, at2, hmk⟩
  · have hm : m = [] := by injection hd
    subst hm
    simp [assocGet] at hattr
  · unfold mkMeta at hmk
    have hm := hmk
    injection hm with hm2
    subst hm2
    have ha2 : some (PyVal.dict at2) = some (PyVal.dict attrs) := hattr
    have ha3 := Option.some.inj ha2
    injection ha3 with ha4
    rw [← ha4]
    have hmt : assocGet
        [("srx", a), ("srs", b), ("biosample", c), ("sample_title", d),
         ("study_title", e), ("study_abstract", f), ("organism", g),
         ("tissue", pyOr (agetD at2 "tissue") (agetD at2 "tissue_type")),
         ("cell_type", pyOr (agetD at2 "cell_type") (agetD at2 "celltype")),
         ("cell_line", pyOr (agetD at2 "cell_line") (agetD at2 "cell-line")),
         ("attributes", PyVal.dict at2),
         ("metadata_text", PyVal.str (String.intercalate "\n"
            (buildParts e f d g at2)))] "metadata_text" =
        some (PyVal.str (String.intercalate "\n" (buildParts e f d g at2))) := rfl
    rw [hmt, buildParts_eq]
    rfl

/-- Archive record with a present-but-empty study title and an organism. -/
def xmlTitleCex : PyVal :=
  PyVal.dict [("EXPERIMENT_PACKAGE_SET", PyVal.dict [("EXPERIMENT_PACKAGE",
    PyVal.dict [("SAMPLE", PyVal.dict [("SAMPLE_NAME",
                  PyVal.dict [("SCIENTIFIC_NAME", PyVal.str "Homo sapiens")])]),
                ("STUDY", PyVal.dict [("DESCRIPTOR",
                  PyVal.dict [("STUDY_TITLE", PyVal.str "")])])])])]

/-- The metadata extracted from `xmlTitleCex`. -/
def metaTitleCex : List (String × PyVal) :=
  [("srx", PyVal.none), ("srs", PyVal.none), ("biosample", PyVal.none),
   ("sample_title", PyVal.none), ("study_title", PyVal.str ""),
   ("study_abstract", PyVal.none), ("organism", PyVal.str "Homo sapiens"),
   ("tissue", PyVal.none), ("cell_type", PyVal.none), ("cell_line", PyVal.none),
   ("attributes", PyVal.dict []),
   ("metadata_text", PyVal.str "Organism: Homo sapiens")]

/-- C9 counterexample: the study title is present (an empty string, not null)
yet `metadata_text` carries no `"Study title: "` line — the claim's reading
(every present field is rendered) predicts a different string. -/
theorem claim_C9_counterexample :
    extract_metadata_from_sra_xml xmlTitleCex = Except.ok (PyVal.dict metaTitleCex) ∧
    agetD metaTitleCex "study_title" = PyVal.str "" ∧
    assocGet metaTitleCex "metadata_text" = some (PyVal.str "Organism: Homo sapiens") ∧
    String.intercalate "\n" (presentHeaderLines (agetD metaTitleCex "study_title")
      (agetD metaTitleCex "study_abstract") (agetD metaTitleCex "sample_title")
      (agetD metaTitleCex "organism") ++ attrLines []) =
      "Study title: \nOrganism: Homo sapiens" ∧
    ("Organism: Homo sapiens" : String) ≠ "Study title: \nOrganism: Homo sapiens" :=
  ⟨rfl, rfl, rfl, rfl, by decide⟩

/-- C9 witness: the composed `metadata_text` of the record extracted from
`xmlAliasCex` equals the header lines plus the attribute lines. -/
theorem claim_C9_witness :
    assocGet metaAliasCex "metadata_text" = some (PyVal.str (String.intercalate "\n"
      (headerLines (agetD metaAliasCex "study_title") (agetD metaAliasCex "study_abstract")
        (agetD metaAliasCex "sample_title") (agetD metaAliasCex "organism") ++
       attrLines attrsAliasCex))) :=
  claim_C9 xmlAliasCex metaAliasCex attrsAliasCex rfl rfl

/-- C10. A sample attribute entry whose tag is present (truthy) but whose
value is absent contributes its lower-cased tag with the null value: whenever
the last entry tagged `k` (case-insensitively) carries no value, the attribute
map stores `k ↦ None` — not skipped, not the empty string — and the rendered
parts of `metadata_text` contain the line `"k: None"`. -/
theorem claim_C10 : ∀ (entries : List PyVal) (m : List (String × PyVal)) (k : String)
    (st sa ti org : PyVal),
    attrsOf entries [] = Except.ok m → lastValueFor entries k = some PyVal.none →
    assocGet m k = some PyVal.none ∧ (k ++ ": None") ∈ buildParts st sa ti org m := by
  intro entries m k st sa ti org h hl
  have h1 : assocGet m k = some PyVal.none := by
    rw [attrsOf_lookup entries [] m h k, hl]
  refine ⟨h1, ?_⟩
  rw [buildParts_eq]
  apply List.mem_append_right
  unfold attrLines
  refine List.mem_map.mpr ⟨(k, PyVal.none), assocGet_mem m k PyVal.none h1, ?_⟩
  show k ++ ": " ++ pyStr PyVal.none = k ++ ": None"
  rw [show pyStr PyVal.none = "None" from rfl, String.append_assoc]
  rfl

/-- C10 witness: an attribute entry `Source` with no `VALUE` key yields
`source ↦ None` in the map and the line `"source: None"` in the parts. -/
theorem claim_C10_witness :
    assocGet [("source", PyVal.none)] "source" = some PyVal.none ∧
    ("source: None") ∈ buildParts PyVal.none PyVal.none PyVal.none PyVal.none
      [("source", PyVal.none)] :=
  claim_C10 [PyVal.dict [("TAG", PyVal.str "Source")]] [("source", PyVal.none)] "source"
    PyVal.none PyVal.none PyVal.none PyVal.none rfl rfl
